import Mathlib

/-!
Shallow embedding of `paddle/cinn/ir/lowered_func.h` (CINN function-lowering
finalization layer): the `Argument`, `CudaAxisInfo`, `TempSpaceInfo` value
types and the `_LoweredFunc_` aggregate, together with the preparation
pipeline.  Method bodies that live only in `lowered_func.cc` (absent from the
sources at hand) are modelled from the specification; each such definition
carries a doc comment starting with `Modelled from the spec:`.
-/

namespace Cinn

/-- IO tag of an `Argument` (the C++ `enum class Argument::IO`):
`kInput` means the arg is input, `kOutput` output, `kUnknown` maybe either. -/
inductive IOType where
  | kInput
  | kOutput
  | kUnknown
deriving DecidableEq

/-- A scalar variable entity (`ir::Var`), external collaborator; only its
name is relevant to this layer. -/
structure Var where
  name : String
deriving DecidableEq

/-- A buffer entity (`ir::Buffer`), external collaborator.  `name` drives the
name-based deduplication; `statically_sized` records whether the backing
size is statically known at call time (caller-sized buffers are excluded
from synthesized allocation, per the spec). -/
structure Buffer where
  name : String
  statically_sized : Bool
deriving DecidableEq

/-- A tensor entity (`ir::Tensor`): a logical array backed by a buffer.
`node_id` is the IR-node identity, so two distinct node instances may carry
the same `name`; `expr_gen` marks tensors that only appear inside generated
(non-user) sub-expressions. -/
structure Tensor where
  name : String
  node_id : Nat
  expr_gen : Bool
deriving DecidableEq

/-- IR expressions (`ir::Expr`), the opaque substrate: we model integer
immediates, variable and tensor references, the synthesized alloc / free /
pointer-cast statements, and a binary node giving trees their children. -/
inductive Expr where
  | intImm (v : Int)
  | varRef (name : String)
  | tensorNode (t : Tensor)
  | allocNode (bufName : String)
  | freeNode (bufName : String)
  | castNode (tensorName : String)
  | seqNode (a b : Expr)
deriving DecidableEq

/-- Errors of the lowering layer (section 7 of the spec); only the axis
indexing error is reachable from the header-level surface modelled here. -/
inductive LoweringError where
  | invalidAxisOffset (offset : Int)
deriving DecidableEq

/-- An argument of a lowered function (`struct Argument`): an IO tag plus
the two payload slots `buffer_arg_` / `var_arg_`; an unset `ir::Buffer` /
`ir::Var` reference is `none`. -/
structure Argument where
  ioTag : IOType
  buffer_arg : Option Buffer
  var_arg : Option Var
deriving DecidableEq

namespace Argument

/-- `Argument() = default`: `io` defaults to `IO::kInput`, both payload
references default-construct to undefined. -/
def mkDefault : Argument := { ioTag := .kInput, buffer_arg := none, var_arg := none }

/-- `Argument(const ir::Buffer&, IO)`. -/
def ofBuffer (b : Buffer) (t : IOType) : Argument :=
  { ioTag := t, buffer_arg := some b, var_arg := none }

/-- `Argument(const ir::Var&, IO)`. -/
def ofVar (v : Var) (t : IOType) : Argument :=
  { ioTag := t, buffer_arg := none, var_arg := some v }

def is_input (a : Argument) : Bool := a.ioTag == IOType.kInput

def is_output (a : Argument) : Bool := a.ioTag == IOType.kOutput

def is_var (a : Argument) : Bool := a.var_arg.isSome

def is_buffer (a : Argument) : Bool := a.buffer_arg.isSome

def defined (a : Argument) : Bool := a.is_var || a.is_buffer

/-- Modelled from the spec: the body of `Argument::set_buffer` lives in
`lowered_func.cc`.  Per the spec, the setters "must be used to replace, not
add, the payload (setting one should be understood to clear the other)". -/
def set_buffer (a : Argument) (x : Buffer) : Argument :=
  { a with buffer_arg := some x, var_arg := none }

/-- Modelled from the spec: the body of `Argument::set_var` lives in
`lowered_func.cc`; it replaces the payload, clearing the buffer slot. -/
def set_var (a : Argument) (x : Var) : Argument :=
  { a with var_arg := some x, buffer_arg := none }

end Argument

/-- The arguments reachable by the `Argument` construction interface: the
default constructor, the two entity constructors, and the two setters. -/
inductive Constructed : Argument → Prop where
  | mkDefault : Constructed Argument.mkDefault
  | ofBuffer (b : Buffer) (t : IOType) : Constructed (Argument.ofBuffer b t)
  | ofVar (v : Var) (t : IOType) : Constructed (Argument.ofVar v t)
  | set_buffer (a : Argument) (x : Buffer) :
      Constructed a → Constructed (a.set_buffer x)
  | set_var (a : Argument) (x : Var) :
      Constructed a → Constructed (a.set_var x)

/-- One triple of symbolic dimensions (`symbolic_dim3_t`, i.e.
`std::array<ir::Expr, 3>`), fields x, y, z. -/
structure Dim3 where
  x : Expr
  y : Expr
  z : Expr
deriving DecidableEq

/-- GPU launch shape (`struct CudaAxisInfo`): grid and block dimension
triples plus the validity flag. -/
structure CudaAxisInfo where
  grid_dims : Dim3
  block_dims : Dim3
  valid : Bool
deriving DecidableEq

namespace CudaAxisInfo

/-- `inline void set_valid(bool x = false)`. -/
def set_valid (c : CudaAxisInfo) (x : Bool) : CudaAxisInfo := { c with valid := x }

/-- The `CudaAxisInfo()` constructor: every grid and block dimension is set
to `ir::Expr(static_cast<int64_t>(1))` and `set_valid(false)` is called. -/
def mkDefault : CudaAxisInfo :=
  set_valid
    { grid_dims := ⟨Expr.intImm 1, Expr.intImm 1, Expr.intImm 1⟩
      block_dims := ⟨Expr.intImm 1, Expr.intImm 1, Expr.intImm 1⟩
      valid := false }
    false

/-- Modelled from the spec: the body of `set_grid_dim(int, ir::Expr)` lives
in `lowered_func.cc`.  Per the spec, the setters "always flip valid to true
as a side effect" and an offset outside 0..2 "fails with an indexing
error". -/
def set_grid_dim (c : CudaAxisInfo) (offset : Int) (e : Expr) :
    Except LoweringError CudaAxisInfo :=
  if offset = 0 then .ok { c with grid_dims := { c.grid_dims with x := e }, valid := true }
  else if offset = 1 then .ok { c with grid_dims := { c.grid_dims with y := e }, valid := true }
  else if offset = 2 then .ok { c with grid_dims := { c.grid_dims with z := e }, valid := true }
  else .error (.invalidAxisOffset offset)

/-- Modelled from the spec: the body of `set_block_dim(int, ir::Expr)` lives
in `lowered_func.cc`; same contract as `set_grid_dim`. -/
def set_block_dim (c : CudaAxisInfo) (offset : Int) (e : Expr) :
    Except LoweringError CudaAxisInfo :=
  if offset = 0 then .ok { c with block_dims := { c.block_dims with x := e }, valid := true }
  else if offset = 1 then .ok { c with block_dims := { c.block_dims with y := e }, valid := true }
  else if offset = 2 then .ok { c with block_dims := { c.block_dims with z := e }, valid := true }
  else .error (.invalidAxisOffset offset)

/-- Modelled from the spec: the integer-literal overload
`set_grid_dim(int, int64_t)` wraps the value into an expression. -/
def set_grid_dim_int (c : CudaAxisInfo) (offset : Int) (v : Int) :
    Except LoweringError CudaAxisInfo :=
  c.set_grid_dim offset (Expr.intImm v)

/-- Modelled from the spec: the integer-literal overload
`set_block_dim(int, int64_t)` wraps the value into an expression. -/
def set_block_dim_int (c : CudaAxisInfo) (offset : Int) (v : Int) :
    Except LoweringError CudaAxisInfo :=
  c.set_block_dim offset (Expr.intImm v)

/-- Modelled from the spec: the body of `grid_dim(int)` lives in
`lowered_func.cc`; out-of-range offsets fail with an indexing error. -/
def grid_dim (c : CudaAxisInfo) (offset : Int) : Except LoweringError Expr :=
  if offset = 0 then .ok c.grid_dims.x
  else if offset = 1 then .ok c.grid_dims.y
  else if offset = 2 then .ok c.grid_dims.z
  else .error (.invalidAxisOffset offset)

/-- Modelled from the spec: the body of `block_dim(int)` lives in
`lowered_func.cc`; out-of-range offsets fail with an indexing error. -/
def block_dim (c : CudaAxisInfo) (offset : Int) : Except LoweringError Expr :=
  if offset = 0 then .ok c.block_dims.x
  else if offset = 1 then .ok c.block_dims.y
  else if offset = 2 then .ok c.block_dims.z
  else .error (.invalidAxisOffset offset)

end CudaAxisInfo

/-- `struct TempSpaceInfo`: one temporary heap allocation threaded through
the argument list — byte-size expression, position in the argument list,
zero-initialization flag.  The C++ `int arg_idx` holds a list position and
is modelled as `Nat`. -/
structure TempSpaceInfo where
  size : Expr
  arg_idx : Nat
  need_zero_init : Bool
deriving DecidableEq

/-- The device-API tag (`DeviceAPI` enum of the external substrate): a
closed set of targets; the header default is `DeviceAPI::UNK`. -/
inductive DeviceAPI where
  | UNK
  | Host
  | GPU
deriving DecidableEq

/-- The lowered-function node `_LoweredFunc_`: name, ordered argument list,
temp buffers, temp spaces, output-tensor count, body, device tag, CUDA axis
info and the four synthesized expression lists.  The C++
`int num_output_tensors` holds a count and is modelled as `Nat`. -/
structure LoweredFunc where
  name : String
  args : List Argument
  temp_bufs : List Buffer
  temp_spaces : List TempSpaceInfo
  num_output_tensors : Nat
  body : Expr
  device_api : DeviceAPI
  cuda_axis_info : CudaAxisInfo
  alloc_output_buffer_exprs : List Expr
  dealloc_output_buffer_exprs : List Expr
  buffer_data_cast_exprs : List Expr
  argument_prepare_exprs : List Expr
deriving DecidableEq

namespace LoweredFunc

/-- `void Verify() const override \x7b\x7d` — the override in
`lowered_func.h` has an empty body: it checks nothing and never fails,
whatever the state of the node. -/
def Verify (_f : LoweredFunc) : Except LoweringError Unit := .ok ()

/-- All tensor nodes occurring in an expression tree, in traversal order
(the generic `expr_fields()` child enumeration of the substrate). -/
def allTensorRefs : Expr → List Tensor
  | .tensorNode t => [t]
  | .seqNode a b => allTensorRefs a ++ allTensorRefs b
  | _ => []

/-- Keep the first occurrence of each tensor name, skipping names already
seen: the name-based deduplication used by `CollectAllTensorReference`. -/
def dedupByName (seen : List String) : List Tensor → List Tensor
  | [] => []
  | t :: ts =>
    if t.name ∈ seen then dedupByName seen ts
    else t :: dedupByName (t.name :: seen) ts

/-- Modelled from the spec: the body of
`CollectAllTensorReference(bool with_expr_gen_tensor)` lives in
`lowered_func.cc`.  Per the spec it traverses `body`, returns the distinct
tensors referenced, deduplicated by name, optionally including tensors that
only appear inside generated sub-expressions depending on the flag. -/
def CollectAllTensorReference (f : LoweredFunc) (with_expr_gen_tensor : Bool) :
    List Tensor :=
  dedupByName []
    ((allTensorRefs f.body).filter (fun t => with_expr_gen_tensor || !t.expr_gen))

/-- Modelled from the spec: the body of
`PrepareBufferCastExprs(bool with_expr_gen_tensor)` lives in
`lowered_func.cc`.  Per the spec it derives, for every referenced buffer, a
typed-pointer-cast statement (mirroring `CollectAllTensorReference`) and
stores the list in `buffer_data_cast_exprs`; the step is idempotent. -/
def PrepareBufferCastExprs (f : LoweredFunc) (with_expr_gen_tensor : Bool) :
    LoweredFunc :=
  { f with buffer_data_cast_exprs :=
      ((f.CollectAllTensorReference with_expr_gen_tensor).map
        (fun t => Expr.castNode t.name)) }

/-- The output arguments whose backing buffer must be allocated by the
synthesized bracketing: output-tagged buffer arguments whose size is not
statically known (caller-sized buffers are excluded), in argument order. -/
def outputBuffersToAlloc (f : LoweredFunc) : List Buffer :=
  f.args.filterMap (fun a =>
    if a.is_output then
      match a.buffer_arg with
      | some b => if b.statically_sized then none else some b
      | none => none
    else none)

/-- Modelled from the spec: the body of `PrepareAllocOutputBufferExprs`
lives in `lowered_func.cc`.  Per the spec it synthesizes one allocation
statement per dynamically sized output buffer, in argument order. -/
def PrepareAllocOutputBufferExprs (f : LoweredFunc) : LoweredFunc :=
  { f with alloc_output_buffer_exprs :=
      (f.outputBuffersToAlloc).map (fun b => Expr.allocNode b.name) }

/-- Modelled from the spec: the body of `PrepareDeallocOutputBufferExprs`
lives in `lowered_func.cc`.  Per the spec the deallocation statements cover
the same buffers and their order is the exact reverse of the allocation
order, guaranteeing strict LIFO nesting. -/
def PrepareDeallocOutputBufferExprs (f : LoweredFunc) : LoweredFunc :=
  { f with dealloc_output_buffer_exprs :=
      ((f.outputBuffersToAlloc).map (fun b => Expr.freeNode b.name)).reverse }

/-- The buffer a synthesized alloc/free statement brackets, if any. -/
def bracketTarget : Expr → Option String
  | .allocNode n => some n
  | .freeNode n => some n
  | _ => none

/-- The argument a temp-space entry materializes as: a buffer argument
(the header comments describe these staging buffers as outputs). -/
def tempSpaceArg (b : Buffer) : Argument :=
  { ioTag := .kOutput, buffer_arg := some b, var_arg := none }

/-- The temp-space descriptors for temp buffers appended starting at
argument position `base`, in order. -/
def mkTempSpaces (base : Nat) : List (Buffer × Expr × Bool) → List TempSpaceInfo
  | [] => []
  | t :: ts =>
    { size := t.2.1, arg_idx := base, need_zero_init := t.2.2 } :: mkTempSpaces (base + 1) ts

/-- The tag check of the finalized call signature: every argument of the
input block is input-tagged and every argument of the output block is
output-tagged (`CheckValid` rejects tag/count mismatches). -/
def signatureTagsOk (inputs outputs : List Argument) : Bool :=
  inputs.all Argument.is_input && outputs.all Argument.is_output

/-- Modelled from the spec: the builder `_LoweredFunc_::Make` and
`CheckValid` live in `lowered_func.cc`.  Per the spec the finalized call
signature is input arguments first, then the output tensor arguments
(`num_output_tensors` of them), then temp-space arguments (not counted in
`num_output_tensors`, their positions recorded in `temp_spaces`); the
preparation pipeline then populates the synthesized expression lists. -/
def buildFinalized (name : String) (inputs outputs : List Argument)
    (temps : List (Buffer × Expr × Bool)) (body : Expr) : LoweredFunc :=
  let tensorArgs := inputs ++ outputs
  let base : LoweredFunc :=
    { name := name
      args := tensorArgs ++ temps.map (fun t => tempSpaceArg t.1)
      temp_bufs := []
      temp_spaces := mkTempSpaces tensorArgs.length temps
      num_output_tensors := outputs.length
      body := body
      device_api := .UNK
      cuda_axis_info := CudaAxisInfo.mkDefault
      alloc_output_buffer_exprs := []
      dealloc_output_buffer_exprs := []
      buffer_data_cast_exprs := []
      argument_prepare_exprs := [] }
  PrepareDeallocOutputBufferExprs
    (PrepareAllocOutputBufferExprs (PrepareBufferCastExprs base true))

/-- Modelled from the spec: the checked builder — construction fails (a
hard construction error in `CheckValid`) unless the signature tag
discipline holds. -/
def MakeFinalized (name : String) (inputs outputs : List Argument)
    (temps : List (Buffer × Expr × Bool)) (body : Expr) : Option LoweredFunc :=
  if signatureTagsOk inputs outputs then
    some (buildFinalized name inputs outputs temps body)
  else none

/-- The tensor-argument portion of the finalized signature: `args` with the
trailing temp-space arguments removed. -/
def tensorArgList (f : LoweredFunc) : List Argument :=
  f.args.take (f.args.length - f.temp_spaces.length)

end LoweredFunc

/-- The signature-ordering property of a finalized function (claim C1): no
output-tagged argument precedes an input-tagged one in `args`; the trailing
`num_output_tensors` entries of the tensor-argument list are exactly its
output-tagged entries; `num_output_tensors` counts exactly the tensor-list
outputs (temp spaces excluded); the tensor-argument list is the initial
block of `args`; and the temp-space argument positions are the consecutive
slots right after it. -/
def SignatureOrdered (f : LoweredFunc) : Prop :=
  (∀ i j, (hi : i < f.args.length) → (hj : j < f.args.length) → i < j →
      (f.args[i]).is_output = true → (f.args[j]).is_input = false) ∧
  f.tensorArgList.drop (f.tensorArgList.length - f.num_output_tensors) =
      f.tensorArgList.filter Argument.is_output ∧
  f.num_output_tensors = (f.tensorArgList.filter Argument.is_output).length ∧
  f.tensorArgList.length = f.args.length - f.temp_spaces.length ∧
  (∀ k, (hk : k < f.temp_spaces.length) →
      (f.temp_spaces[k]).arg_idx = f.tensorArgList.length + k)

/-! ## Theorems for the claims -/

/-- An input-tagged argument is not output-tagged. -/
theorem not_output_of_input {a : Argument} (h : a.is_input = true) :
    a.is_output = false := by
  cases hta : a.ioTag <;>
    simp [Argument.is_input, Argument.is_output, hta] at h ⊢

/-- An output-tagged argument is not input-tagged. -/
theorem not_input_of_output {a : Argument} (h : a.is_output = true) :
    a.is_input = false := by
  cases hta : a.ioTag <;>
    simp [Argument.is_input, Argument.is_output, hta] at h ⊢

/-- In a list split as `A ++ B` with no output tags in `A` and no input
tags in `B`, no output-tagged entry precedes an input-tagged one. -/
theorem no_output_before_input (l A B : List Argument) (hl : l = A ++ B)
    (hA : ∀ a ∈ A, a.is_output = false) (hB : ∀ a ∈ B, a.is_input = false)
    (i j : Nat) (hi : i < l.length) (hj : j < l.length) (hij : i < j)
    (ho : (l[i]).is_output = true) : (l[j]).is_input = false := by
  subst hl
  by_cases hiA : i < A.length
  · rw [List.getElem_append_left hiA] at ho
    exact absurd ho (by simp [hA _ (List.getElem_mem _)])
  · have hjA : A.length ≤ j := by omega
    have hjB : j - A.length < B.length := by
      have hlen := List.length_append A B
      omega
    rw [List.getElem_append_right hjA]
    exact hB _ (List.getElem_mem _)

/-- `mkTempSpaces` yields one descriptor per temp entry. -/
theorem mkTempSpaces_length (ts : List (Buffer × Expr × Bool)) (base : Nat) :
    (LoweredFunc.mkTempSpaces base ts).length = ts.length := by
  induction ts generalizing base with
  | nil => rfl
  | cons hd tl ih => simp [LoweredFunc.mkTempSpaces, ih]

/-- The k-th temp-space descriptor points at argument slot `base + k`. -/
theorem mkTempSpaces_arg_idx (ts : List (Buffer × Expr × Bool)) (base k : Nat)
    (hk : k < (LoweredFunc.mkTempSpaces base ts).length) :
    ((LoweredFunc.mkTempSpaces base ts)[k]).arg_idx = base + k := by
  induction ts generalizing base k with
  | nil => simp [LoweredFunc.mkTempSpaces] at hk
  | cons hd tl ih =>
    cases k with
    | zero => simp [LoweredFunc.mkTempSpaces]
    | succ k2 =>
      have hk2 : k2 < (LoweredFunc.mkTempSpaces (base + 1) tl).length := by
        simp only [LoweredFunc.mkTempSpaces, List.length_cons] at hk
        omega
      simp only [LoweredFunc.mkTempSpaces, List.getElem_cons_succ]
      rw [ih (base + 1) k2 hk2]
      omega

/-- C1: a finalized lowered function satisfies the signature ordering:
input arguments precede output arguments in `args`, the trailing
`num_output_tensors` entries of the tensor-argument list are exactly the
output-tagged tensor arguments, and the temp-space arguments occupy the
slots after them without being counted in `num_output_tensors`. -/
theorem c1_finalized_signature_ordering (name : String)
    (inputs outputs : List Argument) (temps : List (Buffer × Expr × Bool))
    (body : Expr) (h : LoweredFunc.signatureTagsOk inputs outputs = true) :
    LoweredFunc.MakeFinalized name inputs outputs temps body =
      some (LoweredFunc.buildFinalized name inputs outputs temps body) ∧
    SignatureOrdered (LoweredFunc.buildFinalized name inputs outputs temps body) := by
  have hsplit := h
  simp only [LoweredFunc.signatureTagsOk, Bool.and_eq_true, List.all_eq_true] at hsplit
  have hin : ∀ a ∈ inputs, a.is_input = true := hsplit.1
  have hout : ∀ a ∈ outputs, a.is_output = true := hsplit.2
  set F := LoweredFunc.buildFinalized name inputs outputs temps body with hF
  have hargs : F.args =
      (inputs ++ outputs) ++ temps.map (fun t => LoweredFunc.tempSpaceArg t.1) := by
    rw [hF]; rfl
  have hts : F.temp_spaces =
      LoweredFunc.mkTempSpaces (inputs ++ outputs).length temps := by
    rw [hF]; rfl
  have hnum : F.num_output_tensors = outputs.length := by rw [hF]; rfl
  have hlents : F.temp_spaces.length = temps.length := by
    rw [hts, mkTempSpaces_length]
  have hlenargs : F.args.length = (inputs ++ outputs).length + temps.length := by
    rw [hargs]
    simp only [List.length_append, List.length_map]
  have htl : F.tensorArgList = inputs ++ outputs := by
    simp only [LoweredFunc.tensorArgList]
    rw [hlenargs, hlents, hargs]
    have harith : (inputs ++ outputs).length + temps.length - temps.length =
        (inputs ++ outputs).length := by omega
    rw [harith, List.take_left]
  have hfilin : inputs.filter Argument.is_output = [] :=
    List.filter_eq_nil_iff.2 (fun a ha => by simp [not_output_of_input (hin a ha)])
  have hfilout : outputs.filter Argument.is_output = outputs :=
    List.filter_eq_self.2 (fun a ha => hout a ha)
  refine ⟨by simp [LoweredFunc.MakeFinalized, h], ?_, ?_, ?_, ?_, ?_⟩
  · intro i j hi hj hij ho
    refine no_output_before_input F.args inputs
      (outputs ++ temps.map (fun t => LoweredFunc.tempSpaceArg t.1))
      (by rw [hargs, List.append_assoc]) ?_ ?_ i j hi hj hij ho
    · exact fun a ha => not_output_of_input (hin a ha)
    · intro a ha
      rcases List.mem_append.1 ha with ha | ha
      · exact not_input_of_output (hout a ha)
      · rcases List.mem_map.1 ha with ⟨t, _, rfl⟩
        rfl
  · rw [htl, hnum]
    have h1 : (inputs ++ outputs).length - outputs.length = inputs.length := by
      simp
    rw [h1, List.drop_left, List.filter_append, hfilin, hfilout, List.nil_append]
  · rw [htl, hnum, List.filter_append, hfilin, hfilout, List.nil_append]
  · rw [htl, hlenargs, hlents]
    simp
  · intro k hk
    simp only [hts] at hk ⊢
    rw [mkTempSpaces_arg_idx temps _ k hk, htl]

/-- Witness for C1 at a concrete finalized function with one input buffer,
one dynamically sized output buffer and one temp space. -/
theorem c1_finalized_signature_ordering_witness :
    LoweredFunc.signatureTagsOk [Argument.ofBuffer ⟨"A", true⟩ IOType.kInput]
        [Argument.ofBuffer ⟨"B", false⟩ IOType.kOutput] = true ∧
    (LoweredFunc.MakeFinalized "fn" [Argument.ofBuffer ⟨"A", true⟩ IOType.kInput]
        [Argument.ofBuffer ⟨"B", false⟩ IOType.kOutput]
        [(⟨"T", false⟩, Expr.intImm 16, true)]
        (Expr.seqNode (Expr.tensorNode ⟨"A", 0, false⟩)
          (Expr.tensorNode ⟨"B", 1, false⟩)) =
      some (LoweredFunc.buildFinalized "fn"
        [Argument.ofBuffer ⟨"A", true⟩ IOType.kInput]
        [Argument.ofBuffer ⟨"B", false⟩ IOType.kOutput]
        [(⟨"T", false⟩, Expr.intImm 16, true)]
        (Expr.seqNode (Expr.tensorNode ⟨"A", 0, false⟩)
          (Expr.tensorNode ⟨"B", 1, false⟩))) ∧
    SignatureOrdered (LoweredFunc.buildFinalized "fn"
        [Argument.ofBuffer ⟨"A", true⟩ IOType.kInput]
        [Argument.ofBuffer ⟨"B", false⟩ IOType.kOutput]
        [(⟨"T", false⟩, Expr.intImm 16, true)]
        (Expr.seqNode (Expr.tensorNode ⟨"A", 0, false⟩)
          (Expr.tensorNode ⟨"B", 1, false⟩)))) :=
  ⟨by decide, c1_finalized_signature_ordering _ _ _ _ _ (by decide)⟩

/-- Every tensor returned by `dedupByName seen ts` has a name outside
`seen`, and the returned names are pairwise distinct. -/
theorem dedupByName_names_nodup (ts : List Tensor) (seen : List String) :
    (∀ t ∈ LoweredFunc.dedupByName seen ts, t.name ∉ seen) ∧
    ((LoweredFunc.dedupByName seen ts).map Tensor.name).Nodup := by
  induction ts generalizing seen with
  | nil => simp [LoweredFunc.dedupByName]
  | cons hd tl ih =>
    by_cases hmem : hd.name ∈ seen
    · simpa [LoweredFunc.dedupByName, hmem] using ih seen
    · constructor
      · intro t ht
        simp only [LoweredFunc.dedupByName, if_neg hmem, List.mem_cons] at ht
        rcases ht with rfl | ht
        · exact hmem
        · intro hs
          exact (ih (hd.name :: seen)).1 t ht (List.mem_cons_of_mem _ hs)
      · simp only [LoweredFunc.dedupByName, if_neg hmem, List.map_cons,
          List.nodup_cons]
        constructor
        · intro hin
          rcases List.mem_map.1 hin with ⟨t, ht, hname⟩
          exact (ih (hd.name :: seen)).1 t ht
            (by rw [hname]; exact List.mem_cons_self _ _)
        · exact (ih (hd.name :: seen)).2

/-- C4: for every body expression, `CollectAllTensorReference` returns a
tensor list in which no two entries share a name, even when one logical
tensor is referenced through several distinct IR-node instances. -/
theorem c4_collect_tensor_reference_dedup (f : LoweredFunc) (wg : Bool) :
    ((f.CollectAllTensorReference wg).map Tensor.name).Nodup := by
  simpa [LoweredFunc.CollectAllTensorReference] using
    (dedupByName_names_nodup
      ((LoweredFunc.allTensorRefs f.body).filter (fun t => wg || !t.expr_gen)) []).2

/-- C5: re-running `PrepareBufferCastExprs` — or the alloc / dealloc
preparation steps — a second time leaves the function, and in particular
the synthesized expression list, identical to after the first run. -/
theorem c5_prepare_steps_idempotent (f : LoweredFunc) (wg : Bool) :
    (f.PrepareBufferCastExprs wg).PrepareBufferCastExprs wg =
      f.PrepareBufferCastExprs wg ∧
    (f.PrepareAllocOutputBufferExprs).PrepareAllocOutputBufferExprs =
      f.PrepareAllocOutputBufferExprs ∧
    (f.PrepareDeallocOutputBufferExprs).PrepareDeallocOutputBufferExprs =
      f.PrepareDeallocOutputBufferExprs :=
  ⟨rfl, rfl, rfl⟩

/-- A `filterMap` by a more selective function yields a sublist (the
order-preserving restriction) of a `filterMap` by a less selective one. -/
theorem filterMap_sublist_mono {α β : Type} (l : List α) (g1 g2 : α → Option β)
    (h : ∀ a b, g1 a = some b → g2 a = some b) :
    (l.filterMap g1).Sublist (l.filterMap g2) := by
  induction l with
  | nil => simp
  | cons hd tl ih =>
    cases hg : g1 hd with
    | none =>
      cases hg2 : g2 hd with
      | none => simpa [List.filterMap_cons, hg, hg2] using ih
      | some b =>
        simp only [List.filterMap_cons, hg, hg2]
        exact ih.cons b
    | some b =>
      have hb := h hd b hg
      simp only [List.filterMap_cons, hg, hb]
      exact ih.cons₂ b

/-- C3: after the alloc/dealloc preparation steps, the two synthesized
lists have equal length, the deallocations bracket exactly the allocated
buffers in the exact reverse (LIFO) order, and the allocation order follows
the argument order. -/
theorem c3_alloc_dealloc_symmetry (f : LoweredFunc) :
    ((f.PrepareAllocOutputBufferExprs).PrepareDeallocOutputBufferExprs).alloc_output_buffer_exprs.length =
      ((f.PrepareAllocOutputBufferExprs).PrepareDeallocOutputBufferExprs).dealloc_output_buffer_exprs.length ∧
    ((f.PrepareAllocOutputBufferExprs).PrepareDeallocOutputBufferExprs).dealloc_output_buffer_exprs.map
        LoweredFunc.bracketTarget =
      (((f.PrepareAllocOutputBufferExprs).PrepareDeallocOutputBufferExprs).alloc_output_buffer_exprs.map
        LoweredFunc.bracketTarget).reverse ∧
    ((f.PrepareAllocOutputBufferExprs).PrepareDeallocOutputBufferExprs).alloc_output_buffer_exprs =
      (f.outputBuffersToAlloc).map (fun b => Expr.allocNode b.name) ∧
    (f.outputBuffersToAlloc).Sublist (f.args.filterMap Argument.buffer_arg) := by
  refine ⟨?_, ?_, rfl, ?_⟩
  · simp [LoweredFunc.PrepareAllocOutputBufferExprs,
      LoweredFunc.PrepareDeallocOutputBufferExprs, LoweredFunc.outputBuffersToAlloc]
  · simp [LoweredFunc.PrepareAllocOutputBufferExprs,
      LoweredFunc.PrepareDeallocOutputBufferExprs, LoweredFunc.outputBuffersToAlloc,
      LoweredFunc.bracketTarget, List.map_reverse, List.map_map, Function.comp]
  · simp only [LoweredFunc.outputBuffersToAlloc]
    refine filterMap_sublist_mono f.args _ _ ?_
    intro a b hab
    by_cases ho : a.is_output
    · simp only [ho, if_true] at hab
      cases hba : a.buffer_arg with
      | none => rw [hba] at hab; exact absurd hab (by simp)
      | some b2 =>
        rw [hba] at hab
        by_cases hs : b2.statically_sized
        · simp [hs] at hab
        · simp only [hs] at hab
          simpa using hab
    · simp [ho] at hab

/-- C6: every freshly default-constructed `CudaAxisInfo` has
`valid() == false` and all six dimensions (grid x/y/z and block x/y/z)
equal to the integer constant 1. -/
theorem c6_cuda_axis_info_default :
    CudaAxisInfo.mkDefault.valid = false ∧
    CudaAxisInfo.mkDefault.grid_dim 0 = Except.ok (Expr.intImm 1) ∧
    CudaAxisInfo.mkDefault.grid_dim 1 = Except.ok (Expr.intImm 1) ∧
    CudaAxisInfo.mkDefault.grid_dim 2 = Except.ok (Expr.intImm 1) ∧
    CudaAxisInfo.mkDefault.block_dim 0 = Except.ok (Expr.intImm 1) ∧
    CudaAxisInfo.mkDefault.block_dim 1 = Except.ok (Expr.intImm 1) ∧
    CudaAxisInfo.mkDefault.block_dim 2 = Except.ok (Expr.intImm 1) :=
  ⟨rfl, rfl, rfl, rfl, rfl, rfl, rfl⟩

/-- C9: for every `_LoweredFunc_` node, whatever its state, the overridden
`Verify()` has an empty body: it performs no check and never fails. -/
theorem c9_verify_never_fails (f : LoweredFunc) : f.Verify = Except.ok () := rfl

/-- C10: a default-constructed `Argument` has the `kInput` tag, so
`is_input()` is true while `defined()` is false; and the input/output tag
queries depend only on the tag, never on the payloads. -/
theorem c10_default_argument_input_tag (a b : Argument) (h : a.ioTag = b.ioTag) :
    Argument.mkDefault.ioTag = IOType.kInput ∧
    Argument.mkDefault.is_input = true ∧
    Argument.mkDefault.defined = false ∧
    a.is_input = b.is_input ∧ a.is_output = b.is_output := by
  refine ⟨rfl, rfl, rfl, ?_, ?_⟩ <;>
    simp [Argument.is_input, Argument.is_output, h]

/-- Witness for C10 at two concrete arguments with equal tags and different
payloads. -/
theorem c10_default_argument_input_tag_witness :
    (Argument.ofBuffer ⟨"A", true⟩ IOType.kInput).ioTag =
        (Argument.ofVar ⟨"v"⟩ IOType.kInput).ioTag ∧
    (Argument.mkDefault.ioTag = IOType.kInput ∧
      Argument.mkDefault.is_input = true ∧
      Argument.mkDefault.defined = false ∧
      (Argument.ofBuffer ⟨"A", true⟩ IOType.kInput).is_input =
          (Argument.ofVar ⟨"v"⟩ IOType.kInput).is_input ∧
      (Argument.ofBuffer ⟨"A", true⟩ IOType.kInput).is_output =
          (Argument.ofVar ⟨"v"⟩ IOType.kInput).is_output) :=
  ⟨rfl, c10_default_argument_input_tag _ _ rfl⟩

/-- C2: every `Argument` reachable through the construction interface has
at most one payload set: whenever `defined()` is true, `is_var()` and
`is_buffer()` disagree — also after `set_buffer` / `set_var`. -/
theorem c2_argument_exclusivity (a : Argument) (h : Constructed a) :
    (a.is_var && a.is_buffer) = false ∧
    (a.defined = true → a.is_var ≠ a.is_buffer) := by
  induction h with
  | mkDefault =>
    simp [Argument.mkDefault, Argument.is_var, Argument.is_buffer, Argument.defined]
  | ofBuffer b t =>
    simp [Argument.ofBuffer, Argument.is_var, Argument.is_buffer, Argument.defined]
  | ofVar v t =>
    simp [Argument.ofVar, Argument.is_var, Argument.is_buffer, Argument.defined]
  | set_buffer a x _ _ =>
    simp [Argument.set_buffer, Argument.is_var, Argument.is_buffer, Argument.defined]
  | set_var a x _ _ =>
    simp [Argument.set_var, Argument.is_var, Argument.is_buffer, Argument.defined]

/-- Witness for C2 at a concrete argument built by a constructor followed by
a `set_buffer` replacing the var payload. -/
theorem c2_argument_exclusivity_witness :
    Constructed ((Argument.ofVar ⟨"v"⟩ IOType.kInput).set_buffer ⟨"A", true⟩) ∧
    ((((Argument.ofVar ⟨"v"⟩ IOType.kInput).set_buffer ⟨"A", true⟩).is_var &&
        ((Argument.ofVar ⟨"v"⟩ IOType.kInput).set_buffer ⟨"A", true⟩).is_buffer) = false ∧
      (((Argument.ofVar ⟨"v"⟩ IOType.kInput).set_buffer ⟨"A", true⟩).defined = true →
        ((Argument.ofVar ⟨"v"⟩ IOType.kInput).set_buffer ⟨"A", true⟩).is_var ≠
          ((Argument.ofVar ⟨"v"⟩ IOType.kInput).set_buffer ⟨"A", true⟩).is_buffer)) :=
  ⟨Constructed.set_buffer _ _ (Constructed.ofVar _ _),
    c2_argument_exclusivity _ (Constructed.set_buffer _ _ (Constructed.ofVar _ _))⟩

/-- C7: for every in-range offset, each of the four dimension setters
(grid/block, expression and integer form) leaves `valid()` true on the
state it returns, whatever value is stored. -/
theorem c7_setters_set_valid (c : CudaAxisInfo) (offset : Int) (e : Expr) (v : Int)
    (h0 : 0 ≤ offset) (h2 : offset ≤ 2) :
    (c.set_grid_dim offset e).map CudaAxisInfo.valid = Except.ok true ∧
    (c.set_block_dim offset e).map CudaAxisInfo.valid = Except.ok true ∧
    (c.set_grid_dim_int offset v).map CudaAxisInfo.valid = Except.ok true ∧
    (c.set_block_dim_int offset v).map CudaAxisInfo.valid = Except.ok true := by
  have ho : offset = 0 ∨ offset = 1 ∨ offset = 2 := by omega
  rcases ho with h | h | h <;> subst h <;>
    simp [CudaAxisInfo.set_grid_dim, CudaAxisInfo.set_block_dim,
      CudaAxisInfo.set_grid_dim_int, CudaAxisInfo.set_block_dim_int, Except.map]

/-- Witness for C7 at the default axis info, offset 2, an expression value
and the integer value 7. -/
theorem c7_setters_set_valid_witness :
    ((0:Int) ≤ 2 ∧ (2:Int) ≤ 2) ∧
    ((CudaAxisInfo.mkDefault.set_grid_dim 2 (Expr.varRef "n")).map
        CudaAxisInfo.valid = Except.ok true ∧
      (CudaAxisInfo.mkDefault.set_block_dim 2 (Expr.varRef "n")).map
        CudaAxisInfo.valid = Except.ok true ∧
      (CudaAxisInfo.mkDefault.set_grid_dim_int 2 7).map
        CudaAxisInfo.valid = Except.ok true ∧
      (CudaAxisInfo.mkDefault.set_block_dim_int 2 7).map
        CudaAxisInfo.valid = Except.ok true) :=
  ⟨⟨by decide, by decide⟩,
    c7_setters_set_valid CudaAxisInfo.mkDefault 2 (Expr.varRef "n") 7
      (by decide) (by decide)⟩

/-- C8: every grid/block dimension setter or getter called with an offset
outside 0..2 fails with the indexing error carrying that offset; no
dimension value is returned and no state is produced. -/
theorem c8_out_of_range_axis_offset (c : CudaAxisInfo) (offset : Int) (e : Expr)
    (v : Int) (h : offset < 0 ∨ 2 < offset) :
    c.set_grid_dim offset e = Except.error (.invalidAxisOffset offset) ∧
    c.set_block_dim offset e = Except.error (.invalidAxisOffset offset) ∧
    c.set_grid_dim_int offset v = Except.error (.invalidAxisOffset offset) ∧
    c.set_block_dim_int offset v = Except.error (.invalidAxisOffset offset) ∧
    c.grid_dim offset = Except.error (.invalidAxisOffset offset) ∧
    c.block_dim offset = Except.error (.invalidAxisOffset offset) := by
  have h0 : offset ≠ 0 := by rcases h with h | h <;> omega
  have h1 : offset ≠ 1 := by rcases h with h | h <;> omega
  have h2 : offset ≠ 2 := by rcases h with h | h <;> omega
  simp [CudaAxisInfo.set_grid_dim, CudaAxisInfo.set_block_dim,
    CudaAxisInfo.set_grid_dim_int, CudaAxisInfo.set_block_dim_int,
    CudaAxisInfo.grid_dim, CudaAxisInfo.block_dim, h0, h1, h2]

/-- Witness for C8 at the default axis info and the out-of-range offset 3. -/
theorem c8_out_of_range_axis_offset_witness :
    ((3:Int) < 0 ∨ (2:Int) < 3) ∧
    (CudaAxisInfo.mkDefault.set_grid_dim 3 (Expr.intImm 4) =
        Except.error (.invalidAxisOffset 3) ∧
      CudaAxisInfo.mkDefault.set_block_dim 3 (Expr.intImm 4) =
        Except.error (.invalidAxisOffset 3) ∧
      CudaAxisInfo.mkDefault.set_grid_dim_int 3 9 =
        Except.error (.invalidAxisOffset 3) ∧
      CudaAxisInfo.mkDefault.set_block_dim_int 3 9 =
        Except.error (.invalidAxisOffset 3) ∧
      CudaAxisInfo.mkDefault.grid_dim 3 = Except.error (.invalidAxisOffset 3) ∧
      CudaAxisInfo.mkDefault.block_dim 3 = Except.error (.invalidAxisOffset 3)) :=
  ⟨Or.inr (by decide),
    c8_out_of_range_axis_offset CudaAxisInfo.mkDefault 3 (Expr.intImm 4) 9
      (Or.inr (by decide))⟩

end Cinn
